import Mathlib

/-!
# Sourcetrail: generic lookups of `SqliteStorage` and the project set-up form

Shallow embedding of

* `src/lib/data/SqliteStorage.h`: the generic query templates `getAll`,
  `getFirstById`, `getAllByIds` and the private primitive `doGetFirst`;
* `src/app/qt/window/QtProjectSetupScreen.cpp`: `clear` and
  `handleUpdateButtonPress`.

A member function becomes a function from the object's state to its result and
the state afterwards.  SQL text is kept as text: the templates build their
`WHERE` clauses by string concatenation and the embedding does the same, so that
what a lookup returns depends on how the engine reads the built text.
-/

namespace Sourcetrail

/-! ## Identifiers and result kinds -/

/-- Identifier type `Id` of `utility/types.h`, an unsigned integer; identifier 0 is
reserved to mean absent. -/
abbrev Id := Nat

/-- Enumeration `SqliteStorage::StorageModeType`. -/
inductive StorageModeType where
  | STORAGE_MODE_UNKNOWN
  | STORAGE_MODE_READ
  | STORAGE_MODE_WRITE
  | STORAGE_MODE_CLEAR
  deriving DecidableEq, Repr

/-- Enumerator values of `StorageModeType`. -/
def StorageModeType.value : StorageModeType → Nat
  | .STORAGE_MODE_UNKNOWN => 0
  | .STORAGE_MODE_READ => 1
  | .STORAGE_MODE_WRITE => 2
  | .STORAGE_MODE_CLEAR => 4

/-- Result kind `ResultType` of the generic templates.  `data/StorageTypes.h` is
not among the sources, so a kind is a parameter: the row type, the `id` column the
built conditions compare, the default-constructed value `ResultType()`, and how
the engine reads a query text over the other columns of the kind's table. -/
class ResultKind (R : Type) where
  /-- Column `id` of a row. -/
  id : R → Id
  /-- Value of `ResultType()`. -/
  defaultConstructed : R
  /-- The engine's reading of a query text that is not one of the texts the header
  builds: the rows it yields from the table (given in internal order), or nothing
  when the engine rejects the text. -/
  readOther : List Char → Option (List R → List R)

/-! ## The SQL engine behind `doGetAll` -/

/-- Modelled from the spec: the "distinguishable storage error" of the query
API, raised by the engine; it carries the rejected query text. -/
inductive StorageError where
  | sqlError (statement : String)
  deriving DecidableEq, Repr

instance {ε α : Type} [DecidableEq ε] [DecidableEq α] : DecidableEq (Except ε α)
  | .ok a, .ok b => if h : a = b then isTrue (by rw [h]) else isFalse (by intro e; cases e; exact h rfl)
  | .error a, .error b =>
    if h : a = b then isTrue (by rw [h]) else isFalse (by intro e; cases e; exact h rfl)
  | .ok _, .error _ => isFalse (by intro e; cases e)
  | .error _, .ok _ => isFalse (by intro e; cases e)

/-- Modelled from the spec: part of the SQL engine behind `doGetAll` (absent).
Remove `head` from the front of `cs`, when `cs` starts with it. -/
def dropHead? : List Char → List Char → Option (List Char)
  | [], cs => some cs
  | _ :: _, [] => none
  | p :: ps, c :: cs => if p = c then dropHead? ps cs else none

/-- Modelled from the spec: part of the SQL engine behind `doGetAll` (absent).
Remove `tail` from the end of `cs`, when `cs` ends with it. -/
def dropTail? (tail cs : List Char) : Option (List Char) :=
  (dropHead? tail.reverse cs.reverse).map List.reverse

/-- Modelled from the spec: part of the SQL engine behind `doGetAll` (absent).
Value of a decimal digit character. -/
def digitValue? (c : Char) : Option Nat :=
  if 48 ≤ c.toNat ∧ c.toNat ≤ 57 then some (c.toNat - 48) else none

/-- Modelled from the spec: part of the SQL engine behind `doGetAll` (absent).
Read the remaining digits of an integer literal onto the value read so far. -/
def readNumberFrom : Nat → List Char → Option Nat
  | acc, [] => some acc
  | acc, c :: cs =>
    match digitValue? c with
    | some d => readNumberFrom (10 * acc + d) cs
    | none => none

/-- Modelled from the spec: part of the SQL engine behind `doGetAll` (absent).
Read an unsigned integer literal: one or more decimal digits. -/
def readNumber : List Char → Option Nat
  | [] => none
  | c :: cs => readNumberFrom 0 (c :: cs)

/-- Modelled from the spec: part of the SQL engine behind `doGetAll` (absent).
Drop the blanks in front of a text. -/
def dropBlanks : List Char → List Char
  | [] => []
  | c :: cs => if c = ' ' then dropBlanks cs else c :: cs

/-- Modelled from the spec: part of the SQL engine behind `doGetAll` (absent).
Cut a text at every comma. -/
def splitComma : List Char → List (List Char)
  | [] => [[]]
  | c :: cs =>
    if c = ',' then [] :: splitComma cs
    else
      match splitComma cs with
      | [] => [[c]]
      | item :: items => (c :: item) :: items

/-- Modelled from the spec: part of the SQL engine behind `doGetAll` (absent).
Read every item of a list, after its leading blanks, as an integer literal. -/
def readNumbers : List (List Char) → Option (List Nat)
  | [] => some []
  | item :: items =>
    match readNumber (dropBlanks item), readNumbers items with
    | some n, some ns => some (n :: ns)
    | _, _ => none

/-- Modelled from the spec: part of the SQL engine behind `doGetAll` (absent).
Read the inside of `IN (...)`: nothing, or integer literals separated by commas. -/
def readIdList : List Char → Option (List Nat)
  | [] => some []
  | c :: cs => readNumbers (splitComma (c :: cs))

/-- Modelled from the spec: part of the SQL engine behind `doGetAll` (absent).
Condition on the `id` column: none, `id == n`, or `id IN (ns)`. -/
inductive Condition where
  | all
  | idEq (n : Nat)
  | idIn (ns : List Nat)
  deriving DecidableEq, Repr

/-- Modelled from the spec: part of the SQL engine behind `doGetAll` (absent).
Whether a row with identifier `i` satisfies the condition. -/
def Condition.holds : Condition → Id → Bool
  | .all, _ => true
  | .idEq n, i => i == n
  | .idIn ns, i => ns.contains i

/-- Text of the clause `doGetFirst` appends to its query. -/
def limitText : List Char := " LIMIT 1".toList

/-- Modelled from the spec: part of the SQL engine behind `doGetAll` (absent).
Whether a query text carries a `LIMIT` clause: the keyword occurs in it. -/
def hasLimit : List Char → Bool
  | [] => false
  | c :: cs => (dropHead? "LIMIT".toList (c :: cs)).isSome || hasLimit cs

/-- Modelled from the spec: part of the SQL engine behind `doGetAll` (absent).
Read one of the texts the header builds: the empty text, `WHERE id == <n>` or
`WHERE id IN (<n>,...,<n>)`. -/
def readIdCondition (cs : List Char) : Option Condition :=
  match cs with
  | [] => some .all
  | _ :: _ =>
    match dropHead? "WHERE id == ".toList cs with
    | some rest => (readNumber rest).map .idEq
    | none =>
      match dropHead? "WHERE id IN (".toList cs with
      | some rest =>
        match dropTail? [')'] rest with
        | some inner => (readIdList inner).map .idIn
        | none => none
      | none => none

/-- Modelled from the spec: part of the SQL engine behind `doGetAll` (absent).
Read a query text, a final ` LIMIT 1` apart: the rows it yields from the table.
A text the header builds selects by its condition on `id`, in internal order;
every other text is read over the columns of the kind. -/
def readTail {R : Type} [ResultKind R] (cs : List Char) : Option (List R → List R) :=
  match readIdCondition cs with
  | some c => some (fun table => table.filter (fun r => c.holds (ResultKind.id r)))
  | none => ResultKind.readOther cs

/-- Modelled from the spec: part of the SQL engine behind `doGetAll` (absent).
Read a query text: the rows it yields, and whether their number is limited to
one.  A text that ends with ` LIMIT 1` is the text in front of it, limited; a
`LIMIT` clause in front of that one is a syntax error. -/
def readQuery {R : Type} [ResultKind R] (cs : List Char) :
    Option ((List R → List R) × Bool) :=
  match dropTail? limitText cs with
  | some body => if hasLimit body then none else (readTail body).map (fun rowsOf => (rowsOf, true))
  | none => (readTail cs).map (fun rowsOf => (rowsOf, false))

/-- Modelled from the spec: the database handle `CppSQLite3DB` of
`sqlite/CppSQLite3.h` (absent), seen from one result kind: the rows of the kind's
table in the engine's internal order, and the query texts executed so far (what
the handle, declared `mutable`, accumulates under a `const` call). -/
structure CppSQLite3DB (R : Type) where
  table : List R
  executed : List String

/-- Modelled from the spec: the rows a query text selects from a table (query
API: lookups "by identifier", fetch of "every row of a kind", one match "first by
internal order").  The rows the text yields are given, the first one only under
` LIMIT 1`; a text the engine cannot read is a storage error. -/
def selectRows {R : Type} [ResultKind R] (table : List R) (query : String) :
    Except StorageError (List R) :=
  match readQuery query.toList with
  | some (rowsOf, limited) =>
    let selected := rowsOf table
    .ok (if limited then selected.take 1 else selected)
  | none => .error (.sqlError query)

/-- Modelled from the spec: `CppSQLite3DB::execQuery` on the statement
`SELECT <columns> FROM <table> <query>;` of one kind: the selected rows, and the
handle with the query text recorded as executed.  The table is left as it is
("pure read operations"). -/
def CppSQLite3DB.execQuery {R : Type} [ResultKind R] (db : CppSQLite3DB R) (query : String) :
    Except StorageError (List R) × CppSQLite3DB R :=
  (selectRows db.table query, { db with executed := db.executed ++ [query] })

/-! ## The Edge kind -/

/-- Modelled from the spec: `StorageEdge` of `data/StorageTypes.h` (absent), with
the attributes the data model gives an Edge: id, type tag, source node id, target
node id. -/
structure StorageEdge where
  id : Id
  type : Int
  sourceNodeId : Id
  targetNodeId : Id
  deriving DecidableEq, Repr

/-- Modelled from the spec: part of the SQL engine behind `doGetAll` (absent).
Cut a text at every blank. -/
def splitBlank : List Char → List (List Char)
  | [] => [[]]
  | c :: cs =>
    if c = ' ' then [] :: splitBlank cs
    else
      match splitBlank cs with
      | [] => [[c]]
      | word :: words => (c :: word) :: words

/-- Modelled from the spec: part of the SQL engine behind `doGetAll` (absent).
Words of a text: its non-empty pieces between blanks. -/
def wordsOf (cs : List Char) : List (List Char) :=
  (splitBlank cs).filter (fun word => !word.isEmpty)

/-- Modelled from the spec: column of the edge table named by a word (data model:
id, type tag, source node id, target node id). -/
def StorageEdge.column? (name : List Char) : Option (StorageEdge → Int) :=
  if name = "id".toList then some (fun e => (e.id : Int))
  else if name = "type".toList then some (fun e => e.type)
  else if name = "source_node_id".toList then some (fun e => (e.sourceNodeId : Int))
  else if name = "target_node_id".toList then some (fun e => (e.targetNodeId : Int))
  else none

/-- Modelled from the spec: part of the SQL engine behind `doGetAll` (absent).
Comparison named by an operator word. -/
def comparison? (op : List Char) : Option (Int → Int → Bool) :=
  if op = "==".toList ∨ op = "=".toList then some (fun a b => a == b)
  else if op = "!=".toList ∨ op = "<>".toList then some (fun a b => a != b)
  else if op = "<".toList then some (fun a b => a < b)
  else if op = "<=".toList then some (fun a b => a ≤ b)
  else if op = ">".toList then some (fun a b => a > b)
  else if op = ">=".toList then some (fun a b => a ≥ b)
  else none

/-- Modelled from the spec: part of the SQL engine behind `doGetAll` (absent).
Read one comparison `<column> <operator> <integer>` as a test on edges. -/
def StorageEdge.readComparison (column op value : List Char) : Option (StorageEdge → Bool) :=
  match StorageEdge.column? column, comparison? op, readNumber value with
  | some columnOf, some compare, some n => some (fun e => compare (columnOf e) (n : Int))
  | _, _, _ => none

/-- Modelled from the spec: part of the SQL engine behind `doGetAll` (absent).
Read comparisons joined by `AND`, possibly followed by `LIMIT <n>`, as a test on
edges and a bound on the number of rows. -/
def StorageEdge.readComparisons : List (List Char) → Option ((StorageEdge → Bool) × Option Nat)
  | [] => none
  | [_] => none
  | [_, _] => none
  | [column, op, value] =>
    (StorageEdge.readComparison column op value).map (fun test => (test, none))
  | column :: op :: value :: word :: rest =>
    if word = "AND".toList then
      match StorageEdge.readComparison column op value, StorageEdge.readComparisons rest with
      | some first, some (others, bound) => some (fun e => first e && others e, bound)
      | _, _ => none
    else if word = "LIMIT".toList then
      match StorageEdge.readComparison column op value, rest with
      | some first, [n] => (readNumber n).map (fun k => (first, some k))
      | _, _ => none
    else none

/-- Modelled from the spec: how the engine reads, for the edge table, a text the
header does not build: `LIMIT <n>` alone, or `WHERE` followed by comparisons of
columns with integers joined by `AND`, possibly followed by `LIMIT <n>`.  The
rows that pass are given in internal order, at most `<n>` of them.  Any other
text is rejected. -/
def StorageEdge.readOther (cs : List Char) : Option (List StorageEdge → List StorageEdge) :=
  match wordsOf cs with
  | [] => none
  | word :: words =>
    if word = "WHERE".toList then
      match StorageEdge.readComparisons words with
      | some (test, some k) => some (fun table => (table.filter test).take k)
      | some (test, none) => some (fun table => table.filter test)
      | none => none
    else if word = "LIMIT".toList then
      match words with
      | [n] => (readNumber n).map (fun k table => table.take k)
      | _ => none
    else none

/-- Modelled from the spec: the default-constructed `StorageEdge`, every field
zero (identifier 0 means absent). -/
instance : ResultKind StorageEdge where
  id := StorageEdge.id
  defaultConstructed := ⟨0, 0, 0, 0⟩
  readOther := StorageEdge.readOther

/-! ## `SqliteStorage` -/

/-- Modelled from the spec: `SqliteIndex` of `data/SqliteIndex.h` (absent), held
by its name. -/
abbrev SqliteIndex := String

/-- Data members of `SqliteStorage`, seen from one result kind. -/
structure SqliteStorage (R : Type) where
  m_database : CppSQLite3DB R
  m_dbFilePath : String
  m_mode : StorageModeType
  m_indices : List (Int × SqliteIndex)

/-- Result of a member function: the returned value or the error thrown, and the
object afterwards. -/
abbrev Outcome (R α : Type) := Except StorageError α × SqliteStorage R

/-- Function `std::to_string` on an identifier: its decimal digits. -/
def to_string (id : Id) : String := Nat.repr id

/-- Modelled from the spec: `utility::toStrings` of `utility/utility.h` (absent):
every element converted with `std::to_string`. -/
def toStrings (ids : List Id) : List String := ids.map to_string

/-- Modelled from the spec: `utility::join` of `utility/utilityString.h` (absent):
the elements in order with the delimiter between neighbours. -/
def join : List String → Char → String
  | [], _ => ""
  | [s], _ => s
  | s :: t :: rest, delimiter => s ++ String.singleton delimiter ++ join (t :: rest) delimiter

namespace SqliteStorage

/-- Modelled from the spec: `SqliteStorage::doGetAll<ResultType>(query)`, declared
in the header and specialised per kind in `SqliteStorage.cpp` (absent): runs the
kind's `SELECT` with `query` appended and returns the rows read. -/
def doGetAll {R : Type} [ResultKind R] (self : SqliteStorage R) (query : String) :
    Outcome R (List R) :=
  let (results, db) := self.m_database.execQuery query
  (results, { self with m_database := db })

/-- Member `SqliteStorage::doGetFirst<ResultType>(query)`. -/
def doGetFirst {R : Type} [ResultKind R] (self : SqliteStorage R) (query : String) :
    Outcome R R :=
  match doGetAll self (query ++ " LIMIT 1") with
  | (.ok results, self') =>
    if h : results.length > 0 then
      (.ok results[0], self')
    else
      (.ok ResultKind.defaultConstructed, self')
  | (.error e, self') => (.error e, self')

/-- Member `SqliteStorage::getAll<ResultType>()`. -/
def getAll {R : Type} [ResultKind R] (self : SqliteStorage R) : Outcome R (List R) :=
  doGetAll self ""

/-- Member `SqliteStorage::getFirstById<ResultType>(id)`, the generic template. -/
def getFirstById {R : Type} [ResultKind R] (self : SqliteStorage R) (id : Id) : Outcome R R :=
  if id != 0 then
    doGetFirst self ("WHERE id == " ++ to_string id)
  else
    (.ok ResultKind.defaultConstructed, self)

/-- Member `SqliteStorage::getAllByIds<ResultType>(ids)`, the generic template. -/
def getAllByIds {R : Type} [ResultKind R] (self : SqliteStorage R) (ids : List Id) :
    Outcome R (List R) :=
  doGetAll self ("WHERE id IN (" ++ join (toStrings ids) ',' ++ ")")

end SqliteStorage

/-! ## `QtProjectSetupScreen` -/

/-- What `handleUpdateButtonPress` does to its collaborators, in program order.
`ProjectSettings`, `MessageLoadProject` and `QMessageBox` are outside the
sources; a call on one of them is recorded with its arguments. -/
inductive Effect where
  /-- A `QMessageBox` with this text is set up and executed. -/
  | messageBox (text : String)
  /-- Call `projSettings->clear()`. -/
  | settingsClear
  /-- Call `projSettings->setSourcePaths(paths)`. -/
  | setSourcePaths (paths : List String)
  /-- Call `projSettings->setHeaderSearchPaths(paths)`. -/
  | setHeaderSearchPaths (paths : List String)
  /-- Call `projSettings->setFrameworkSearchPaths(paths)`. -/
  | setFrameworkSearchPaths (paths : List String)
  /-- Call `projSettings->save(projectFile)`. -/
  | save (projectFile : String)
  /-- Call `MessageLoadProject(projectFile).dispatch()`. -/
  | dispatchLoadProject (projectFile : String)
  /-- Signal `finished()` is emitted. -/
  | emitFinished
  deriving DecidableEq, Repr

/-- Whether the effect is a call on the project settings. -/
def Effect.onSettings : Effect → Bool
  | .settingsClear => true
  | .setSourcePaths _ => true
  | .setHeaderSearchPaths _ => true
  | .setFrameworkSearchPaths _ => true
  | .save _ => true
  | _ => false

/-- Paths passed to `ProjectSettings::save`, in order. -/
def savedFiles : List Effect → List String
  | [] => []
  | .save f :: es => f :: savedFiles es
  | _ :: es => savedFiles es

/-- Paths carried by the dispatched `MessageLoadProject` messages, in order. -/
def dispatchedFiles : List Effect → List String
  | [] => []
  | .dispatchLoadProject f :: es => f :: dispatchedFiles es
  | _ :: es => dispatchedFiles es

/-- Form fields of `QtProjectSetupScreen`: the text of the name line edit and of
the location line, the lists of the directory list boxes; `m_frameworkPaths` is
`nullptr` unless the form was populated on macOS. -/
structure QtProjectSetupScreen where
  m_projectName : String
  m_projectFileLocation : String
  m_sourcePaths : List String
  m_includePaths : List String
  m_frameworkPaths : Option (List String)
  deriving DecidableEq, Repr

namespace QtProjectSetupScreen

/-- Member `QtProjectSetupScreen::clear()`. -/
def clear (self : QtProjectSetupScreen) : QtProjectSetupScreen :=
  { m_projectName := ""
    m_projectFileLocation := ""
    m_sourcePaths := []
    m_includePaths := []
    m_frameworkPaths :=
      match self.m_frameworkPaths with
      | some _ => some []
      | none => none }

/-- Member `QtProjectSetupScreen::handleUpdateButtonPress()`: the effects on the
collaborators in program order, and the form afterwards. -/
def handleUpdateButtonPress (self : QtProjectSetupScreen) : List Effect × QtProjectSetupScreen :=
  if self.m_projectName.isEmpty then
    ([.messageBox "Please enter a project name."], self)
  else if self.m_projectFileLocation.isEmpty then
    ([.messageBox "Please define the location of the project file."], self)
  else if self.m_sourcePaths.length == 0 then
    ([.messageBox "Please add at least one source path to your project."], self)
  else
    let settings : List Effect :=
      [.settingsClear, .setSourcePaths self.m_sourcePaths,
        .setHeaderSearchPaths self.m_includePaths] ++
      (match self.m_frameworkPaths with
        | some paths => [.setFrameworkSearchPaths paths]
        | none => [])
    let projectFile : String :=
      self.m_projectFileLocation ++ "/" ++ self.m_projectName ++ ".coatiproject"
    (settings ++ [.save projectFile, .dispatchLoadProject projectFile, .emitFinished],
      clear self)

end QtProjectSetupScreen

/-! ## Example states -/

/-- Edge table that holds, against the data model, a row whose identifier is 0. -/
def exampleStorage : SqliteStorage StorageEdge :=
  { m_database :=
      { table := [⟨0, 5, 1, 2⟩, ⟨3, 1, 1, 2⟩, ⟨12, 1, 1, 2⟩, ⟨7, 2, 12, 3⟩]
        executed := [] }
    m_dbFilePath := "project.coatidb"
    m_mode := .STORAGE_MODE_READ
    m_indices := [] }

/-- Edge table in which no row has identifier 0. -/
def wellFormedStorage : SqliteStorage StorageEdge :=
  { m_database :=
      { table := [⟨3, 1, 1, 2⟩, ⟨12, 1, 1, 2⟩]
        executed := [] }
    m_dbFilePath := "project.coatidb"
    m_mode := .STORAGE_MODE_READ
    m_indices := [] }

/-- Filled-in form on a platform without framework paths. -/
def exampleForm : QtProjectSetupScreen :=
  { m_projectName := "demo"
    m_projectFileLocation := "/home/user/projects"
    m_sourcePaths := ["/home/user/projects/demo/src"]
    m_includePaths := ["/usr/include"]
    m_frameworkPaths := none }

/-! ## Reading back the text the templates build -/

theorem dropHead?_append (head cs : List Char) : dropHead? head (head ++ cs) = some cs := by
  induction head with
  | nil => cases cs <;> rfl
  | cons p ps ih => simp [dropHead?, ih]

theorem dropTail?_append (tail cs : List Char) : dropTail? tail (cs ++ tail) = some cs := by
  simp [dropTail?, dropHead?_append]

theorem digitValue?_digitChar (k : Nat) (hk : k < 10) : digitValue? (Nat.digitChar k) = some k := by
  interval_cases k <;> rfl

theorem digitValue?_ne_comma {c : Char} {d : Nat} (h : digitValue? c = some d) : c ≠ ',' := by
  rintro rfl
  simp [digitValue?] at h

theorem readNumberFrom_append (xs ys : List Char) (acc : Nat) :
    readNumberFrom acc (xs ++ ys) = (readNumberFrom acc xs).bind (fun v => readNumberFrom v ys) := by
  induction xs generalizing acc with
  | nil => rfl
  | cons c cs ih =>
    simp only [List.cons_append, readNumberFrom]
    cases digitValue? c with
    | none => rfl
    | some d => exact ih _

/-- Digits of a number: what `Nat.toDigitsCore` puts in front of its accumulator. -/
theorem toDigitsCore_digits (fuel : Nat) : ∀ n ds, n < fuel →
    ∃ pre, Nat.toDigitsCore 10 fuel n ds = pre ++ ds ∧ pre ≠ [] ∧
      (∀ c ∈ pre, ∃ d, digitValue? c = some d) ∧ readNumberFrom 0 pre = some n := by
  induction fuel with
  | zero => intro n ds h; omega
  | succ fuel ih =>
    intro n ds h
    have hd : digitValue? (Nat.digitChar (n % 10)) = some (n % 10) :=
      digitValue?_digitChar _ (Nat.mod_lt _ (by decide))
    by_cases h0 : n / 10 = 0
    · refine ⟨[Nat.digitChar (n % 10)], ?_, by simp, ?_, ?_⟩
      · simp [Nat.toDigitsCore, h0]
      · intro c hc
        simp only [List.mem_singleton] at hc
        exact ⟨_, hc ▸ hd⟩
      · simp only [readNumberFrom, hd]
        congr 1
        omega
    · obtain ⟨pre, hpre, -, hdig, hval⟩ := ih (n / 10) (Nat.digitChar (n % 10) :: ds) (by omega)
      refine ⟨pre ++ [Nat.digitChar (n % 10)], ?_, by simp, ?_, ?_⟩
      · simp [Nat.toDigitsCore, h0, hpre]
      · intro c hc
        rcases List.mem_append.mp hc with hc | hc
        · exact hdig c hc
        · simp only [List.mem_singleton] at hc
          exact ⟨_, hc ▸ hd⟩
      · rw [readNumberFrom_append, hval]
        simp only [Option.bind, readNumberFrom, hd]
        congr 1
        omega

/-- Text of `std::to_string`: non-empty, digits only, and read back as the number. -/
theorem to_string_digits (n : Id) :
    (to_string n).toList ≠ [] ∧ (∀ c ∈ (to_string n).toList, ∃ d, digitValue? c = some d) ∧
      readNumber (to_string n).toList = some n := by
  obtain ⟨pre, hpre, hne, hdig, hval⟩ := toDigitsCore_digits (n + 1) n [] (by omega)
  have hl : (to_string n).toList = pre := by
    simp [to_string, Nat.repr, Nat.toDigits, hpre, List.asString]
  rw [hl]
  refine ⟨hne, hdig, ?_⟩
  cases pre with
  | nil => exact absurd rfl hne
  | cons c cs => exact hval

theorem splitComma_item (item : List Char) (h : ∀ c ∈ item, c ≠ ',') :
    splitComma item = [item] := by
  induction item with
  | nil => rfl
  | cons c cs ih =>
    have hc : c ≠ ',' := h c (List.mem_cons_self _ _)
    have hcs : splitComma cs = [cs] := ih (fun x hx => h x (List.mem_cons_of_mem _ hx))
    simp [splitComma, hc, hcs]

theorem splitComma_item_comma (item rest : List Char) (h : ∀ c ∈ item, c ≠ ',') :
    splitComma (item ++ ',' :: rest) = item :: splitComma rest := by
  induction item with
  | nil => simp [splitComma]
  | cons c cs ih =>
    have hc : c ≠ ',' := h c (List.mem_cons_self _ _)
    have hcs := ih (fun x hx => h x (List.mem_cons_of_mem _ hx))
    simp [splitComma, hc, hcs]

theorem to_string_no_comma (n : Id) : ∀ c ∈ (to_string n).toList, c ≠ ',' := by
  intro c hc
  obtain ⟨d, hd⟩ := (to_string_digits n).2.1 c hc
  exact digitValue?_ne_comma hd

theorem dropBlanks_to_string (n : Id) : dropBlanks (to_string n).toList = (to_string n).toList := by
  obtain ⟨hne, hdig, -⟩ := to_string_digits n
  cases hl : (to_string n).toList with
  | nil => rfl
  | cons c cs =>
    obtain ⟨d, hd⟩ := hdig c (by rw [hl]; exact List.mem_cons_self _ _)
    have hc : c ≠ ' ' := by
      rintro rfl
      simp [digitValue?] at hd
    simp [dropBlanks, hc]

/-- Joined decimal texts are read back, item by item, as the identifiers. -/
theorem readNumbers_join (id : Id) (ids : List Id) :
    readNumbers (splitComma (join (toStrings (id :: ids)) ',').toList) = some (id :: ids) := by
  induction ids generalizing id with
  | nil =>
    simp only [toStrings, List.map, join]
    rw [splitComma_item _ (to_string_no_comma id)]
    have hval := (to_string_digits id).2.2
    have hblank := dropBlanks_to_string id
    simp only [String.toList] at hval hblank ⊢
    simp [readNumbers, hblank, hval]
  | cons next ids ih =>
    have hrest := ih next
    simp only [toStrings, List.map] at hrest ⊢
    simp only [join, String.toList, String.data_append, String.singleton, String.data_push,
      List.append_assoc]
    simp only [String.toList] at hrest
    have hsplit := splitComma_item_comma (to_string id).data
      (join (to_string next :: List.map to_string ids) ',').data (to_string_no_comma id)
    simp only [String.data, List.nil_append, List.singleton_append] at hsplit ⊢
    rw [hsplit]
    have hblank := dropBlanks_to_string id
    have hval := (to_string_digits id).2.2
    simp only [String.toList] at hval hblank
    simp only [readNumbers, hrest, hblank, hval]

theorem readIdList_join (ids : List Id) :
    readIdList (join (toStrings ids) ',').toList = some ids := by
  cases ids with
  | nil => rfl
  | cons id ids =>
    have h := readNumbers_join id ids
    cases hl : (join (toStrings (id :: ids)) ',').toList with
    | nil => rw [hl] at h; simp [splitComma, readNumbers, readNumber, dropBlanks] at h
    | cons c cs => rw [hl] at h; exact h

theorem readIdCondition_idEq (id : Id) :
    readIdCondition ("WHERE id == " ++ to_string id).toList = some (.idEq id) := by
  have h : ("WHERE id == " ++ to_string id).toList =
      "WHERE id == ".toList ++ (to_string id).toList := by
    simp [String.toList]
  have hval := (to_string_digits id).2.2
  rw [h]
  show readIdCondition ('W' :: ("HERE id == ".toList ++ (to_string id).toList)) = _
  simp only [readIdCondition]
  have hd := dropHead?_append "WHERE id == ".toList (to_string id).toList
  rw [show 'W' :: ("HERE id == ".toList ++ (to_string id).toList) =
    "WHERE id == ".toList ++ (to_string id).toList from rfl, hd]
  show (readNumber (to_string id).toList).map Condition.idEq = _
  rw [hval]
  rfl

theorem readIdCondition_idIn (ids : List Id) :
    readIdCondition ("WHERE id IN (" ++ join (toStrings ids) ',' ++ ")").toList =
      some (.idIn ids) := by
  have h : ("WHERE id IN (" ++ join (toStrings ids) ',' ++ ")").toList =
      "WHERE id IN (".toList ++ ((join (toStrings ids) ',').toList ++ [')']) := by
    simp [String.toList]
  rw [h]
  show readIdCondition ('W' :: ("HERE id IN (".toList ++ ((join (toStrings ids) ',').toList ++ [')']))) = _
  simp only [readIdCondition]
  have hne : dropHead? "WHERE id == ".toList
      ('W' :: ("HERE id IN (".toList ++ ((join (toStrings ids) ',').toList ++ [')']))) = none := rfl
  have hd := dropHead?_append "WHERE id IN (".toList ((join (toStrings ids) ',').toList ++ [')'])
  rw [hne]
  rw [show 'W' :: ("HERE id IN (".toList ++ ((join (toStrings ids) ',').toList ++ [')'])) =
    "WHERE id IN (".toList ++ ((join (toStrings ids) ',').toList ++ [')']) from rfl, hd]
  show (match dropTail? [')'] ((join (toStrings ids) ',').toList ++ [')']) with
    | some inner => (readIdList inner).map Condition.idIn
    | none => none) = _
  rw [dropTail?_append]
  show (readIdList (join (toStrings ids) ',').toList).map Condition.idIn = _
  rw [readIdList_join]
  rfl

theorem dropHead?_eq_some {head cs rest : List Char} (h : dropHead? head cs = some rest) :
    cs = head ++ rest := by
  induction head generalizing cs with
  | nil =>
    cases cs <;> simp [dropHead?] at h <;> simp [h]
  | cons p ps ih =>
    cases cs with
    | nil => simp [dropHead?] at h
    | cons c cs =>
      simp only [dropHead?] at h
      split at h
      next hpc => rw [hpc, ih h]; rfl
      next => simp at h

theorem mem_of_hasLimit {cs : List Char} (h : hasLimit cs = true) : 'L' ∈ cs := by
  induction cs with
  | nil => cases h
  | cons c cs ih =>
    simp only [hasLimit, Bool.or_eq_true] at h
    rcases h with h | h
    · cases hd : dropHead? "LIMIT".toList (c :: cs) with
      | none => rw [hd] at h; cases h
      | some rest =>
        rw [dropHead?_eq_some hd]
        exact List.mem_append_left _ (by decide)
    · exact List.mem_cons_of_mem _ (ih h)

theorem hasLimit_idEq (id : Id) : hasLimit ("WHERE id == " ++ to_string id).toList = false := by
  cases hl : hasLimit ("WHERE id == " ++ to_string id).toList with
  | false => rfl
  | true =>
    exfalso
    have hmem := mem_of_hasLimit hl
    have h : ("WHERE id == " ++ to_string id).toList =
        "WHERE id == ".toList ++ (to_string id).toList := by
      simp [String.toList]
    rw [h] at hmem
    rcases List.mem_append.mp hmem with hL | hL
    · revert hL; decide
    · obtain ⟨d, hd⟩ := (to_string_digits id).2.1 _ hL
      have hnone : digitValue? 'L' = none := by decide
      rw [hnone] at hd
      cases hd

/-! ## What the engine selects for the texts of the templates -/

section Selection

variable {R : Type} [ResultKind R]

theorem readQuery_limit (query : String) :
    readQuery (R := R) (query ++ " LIMIT 1").toList =
      if hasLimit query.toList then none
      else (readTail query.toList).map (fun rowsOf => (rowsOf, true)) := by
  have h : (query ++ " LIMIT 1").toList = query.toList ++ limitText := by
    simp [String.toList, limitText]
  rw [readQuery, h, dropTail?_append]

theorem readTail_idEq (id : Id) :
    readTail (R := R) ("WHERE id == " ++ to_string id).toList =
      some (fun table => table.filter (fun r => ResultKind.id r == id)) := by
  rw [readTail, readIdCondition_idEq]
  rfl

theorem readQuery_idIn (ids : List Id) :
    readQuery (R := R) ("WHERE id IN (" ++ join (toStrings ids) ',' ++ ")").toList =
      some (fun table => table.filter (fun r => ids.contains (ResultKind.id r)), false) := by
  have hc := readIdCondition_idIn ids
  have h : ("WHERE id IN (" ++ join (toStrings ids) ',' ++ ")").toList =
      ("WHERE id IN (" ++ join (toStrings ids) ',').toList ++ [')'] := by
    simp [String.toList]
  have hno : dropTail? limitText (("WHERE id IN (" ++ join (toStrings ids) ',').toList ++ [')'])
      = none := by
    simp [dropTail?, limitText, dropHead?]
  rw [readQuery, readTail, hc, h, hno]
  rfl

theorem selectRows_empty (table : List R) : selectRows table "" = .ok table := by
  have h : readQuery (R := R) [] = some (fun table => table.filter (fun _ => true), false) := rfl
  simp [selectRows, h]

theorem selectRows_idEq (table : List R) (id : Id) :
    selectRows table ("WHERE id == " ++ to_string id ++ " LIMIT 1") =
      .ok ((table.filter (fun r => ResultKind.id r == id)).take 1) := by
  unfold selectRows
  rw [readQuery_limit, hasLimit_idEq, readTail_idEq]
  simp

theorem selectRows_idIn (table : List R) (ids : List Id) :
    selectRows table ("WHERE id IN (" ++ join (toStrings ids) ',' ++ ")") =
      .ok (table.filter (fun r => ids.contains (ResultKind.id r))) := by
  unfold selectRows
  rw [readQuery_idIn]
  simp

namespace SqliteStorage

theorem doGetAll_fst (self : SqliteStorage R) (query : String) :
    (doGetAll self query).1 = selectRows self.m_database.table query := rfl

theorem doGetAll_snd (self : SqliteStorage R) (query : String) :
    (doGetAll self query).2 =
      { self with m_database :=
          { self.m_database with executed := self.m_database.executed ++ [query] } } := rfl

theorem doGetFirst_snd (self : SqliteStorage R) (query : String) :
    (doGetFirst self query).2 = (doGetAll self (query ++ " LIMIT 1")).2 := by
  unfold doGetFirst
  split
  · split <;> simp_all
  · simp_all

theorem doGetFirst_fst (self : SqliteStorage R) (query : String) :
    (doGetFirst self query).1 =
      match selectRows self.m_database.table (query ++ " LIMIT 1") with
      | .ok results => .ok (results.headD ResultKind.defaultConstructed)
      | .error e => .error e := by
  have h := doGetAll_fst self (query ++ " LIMIT 1")
  unfold doGetFirst
  split
  next results self' heq =>
    rw [heq] at h
    simp only at h
    rw [← h]
    split
    next hlen =>
      cases results with
      | nil => simp at hlen
      | cons r rs => rfl
    next hlen =>
      cases results with
      | nil => rfl
      | cons r rs => simp at hlen
  next e self' heq =>
    rw [heq] at h
    simp only at h
    rw [← h]

theorem getFirstById_fst (self : SqliteStorage R) (id : Id) (hid : id ≠ 0) :
    (getFirstById self id).1 =
      .ok (((self.m_database.table.filter (fun r => ResultKind.id r == id)).take 1).headD
        ResultKind.defaultConstructed) := by
  unfold getFirstById
  simp only [bne_iff_ne, ne_eq, hid, not_false_eq_true, if_true]
  rw [doGetFirst_fst, selectRows_idEq]

end SqliteStorage

end Selection

/-! ## The generic lookups -/

section Lookups

variable {R : Type} [ResultKind R]

namespace SqliteStorage

/-- C1: for every store state and every result kind, `getFirstById` called with
id 0 returns the default-constructed value of the kind and the object is left
exactly as it was: no query text is executed (`doGetFirst` and `doGetAll` are not
reached), whatever rows the table holds, a row whose id is 0 included. -/
theorem getFirstById_zero (self : SqliteStorage R) :
    (getFirstById self 0).1 = .ok ResultKind.defaultConstructed ∧
      (getFirstById self 0).2.m_database.executed = self.m_database.executed ∧
      (getFirstById self 0).2 = self :=
  ⟨rfl, rfl, rfl⟩

/-- C2: for every store state and every non-zero id, `getFirstById id` returns,
without an error, a stored row whose id equals `id` when the kind's table holds
such a row, and the default-constructed value of the kind when no row has that
id. -/
theorem getFirstById_nonzero (self : SqliteStorage R) (id : Id) (hid : id ≠ 0) :
    ((∃ r ∈ self.m_database.table, ResultKind.id r = id) →
        ∃ r, (getFirstById self id).1 = .ok r ∧ r ∈ self.m_database.table ∧
          ResultKind.id r = id) ∧
      ((∀ r ∈ self.m_database.table, ResultKind.id r ≠ id) →
        (getFirstById self id).1 = .ok ResultKind.defaultConstructed) := by
  rw [getFirstById_fst self id hid]
  constructor
  · rintro ⟨r, hr, hrid⟩
    have hmem : r ∈ self.m_database.table.filter (fun r => ResultKind.id r == id) := by
      simp [List.mem_filter, hr, hrid]
    cases hf : self.m_database.table.filter (fun r => ResultKind.id r == id) with
    | nil => rw [hf] at hmem; simp at hmem
    | cons a rest =>
      have ha : a ∈ self.m_database.table.filter (fun r => ResultKind.id r == id) := by
        rw [hf]; exact List.mem_cons_self _ _
      rw [List.mem_filter] at ha
      refine ⟨a, by simp, ha.1, ?_⟩
      simpa using ha.2
  · intro hnone
    have hf : self.m_database.table.filter (fun r => ResultKind.id r == id) = [] := by
      rw [List.filter_eq_nil_iff]
      intro r hr
      simpa using hnone r hr
    rw [hf]
    rfl

/-- C3, as stated, fails: on a store whose table holds no row of id 0,
`getAllByIds [0]` gives the empty collection, as the claim says, but not without
querying the store: the query `WHERE id IN (0)` is executed, where
`getFirstById 0` executes nothing. -/
theorem getAllByIds_zero_counterexample :
    (getAllByIds wellFormedStorage [0]).1 = .ok [] ∧
      (getAllByIds wellFormedStorage [0]).2.m_database.executed = ["WHERE id IN (0)"] ∧
      (getAllByIds wellFormedStorage [0]).2.m_database.executed ≠
        wellFormedStorage.m_database.executed ∧
      (getFirstById wellFormedStorage 0).2.m_database.executed =
        wellFormedStorage.m_database.executed := by
  decide

/-- C3, as amended: `getAllByIds` called with an id list that contains 0 does not
short-circuit as `getFirstById` does for id 0: it executes one query, whose text
lists every id of the list, 0 included; on a store that holds no row of id 0 it
returns a collection with no row for id 0, the empty collection for the list
`[0]`. -/
theorem getAllByIds_zero (self : SqliteStorage R) (ids : List Id) (h0 : 0 ∈ ids) :
    (getAllByIds self ids).2.m_database.executed =
        self.m_database.executed ++ ["WHERE id IN (" ++ join (toStrings ids) ',' ++ ")"] ∧
      "0" ∈ toStrings ids ∧
      ((∀ r ∈ self.m_database.table, ResultKind.id r ≠ 0) →
        ∃ rows, (getAllByIds self ids).1 = .ok rows ∧
          (∀ r ∈ rows, ResultKind.id r ≠ 0) ∧ (ids = [0] → rows = [])) := by
  refine ⟨rfl, List.mem_map.mpr ⟨0, h0, rfl⟩, ?_⟩
  intro hnz
  refine ⟨_, selectRows_idIn self.m_database.table ids,
    fun r hr => hnz r (List.mem_filter.mp hr).1, ?_⟩
  rintro rfl
  rw [List.filter_eq_nil_iff]
  intro r hr
  simpa using hnz r hr

/-- C4: for every store state and every list of ids, `getAllByIds ids` returns
exactly the rows `getAll` returns for the kind whose id is a member of `ids`, in
the same order: every returned row has its id in `ids`, every stored row with its
id in `ids` is returned, as often as `getAll` returns it (once when the table
holds it once), also when `ids` repeats an id (the result is that of the list
with every id kept once), and for the empty list the result is empty. -/
theorem getAllByIds_eq_filter_getAll (self : SqliteStorage R) (ids : List Id) :
    ∃ all rows, (getAll self).1 = .ok all ∧ (getAllByIds self ids).1 = .ok rows ∧
      rows = all.filter (fun r => decide (ResultKind.id r ∈ ids)) ∧
      (∀ r ∈ rows, ResultKind.id r ∈ ids) ∧
      (∀ r ∈ all, ResultKind.id r ∈ ids → r ∈ rows) ∧
      (all.Nodup → rows.Nodup) ∧
      (getAllByIds self ids.dedup).1 = .ok rows ∧
      (ids = [] → rows = []) := by
  refine ⟨self.m_database.table, _, selectRows_empty _, selectRows_idIn _ ids, ?_, ?_, ?_, ?_,
    ?_, ?_⟩
  · simp
  · intro r hr
    simpa using (List.mem_filter.mp hr).2
  · intro r hr hid
    simp [List.mem_filter, hr, hid]
  · intro hnd
    exact hnd.filter _
  · have h := selectRows_idIn self.m_database.table ids.dedup
    have hsame : (fun r : R => ids.dedup.contains (ResultKind.id r)) =
        (fun r : R => ids.contains (ResultKind.id r)) := by
      funext r
      simp
    rw [hsame] at h
    exact h
  · rintro rfl
    simp

/-- C5: the generic query operations `getAll`, `getFirstById` and `getAllByIds`
never mutate: for every store state and every argument, the rows of the table,
the mode flag and the database path (and the indices) are the same after the call
as before it; only the record of executed query texts kept by the mutable
database handle can grow. -/
theorem queries_do_not_mutate (self : SqliteStorage R) (id : Id) (ids : List Id) :
    ((getAll self).2.m_database.table = self.m_database.table ∧
        (getAll self).2.m_mode = self.m_mode ∧
        (getAll self).2.m_dbFilePath = self.m_dbFilePath ∧
        (getAll self).2.m_indices = self.m_indices) ∧
      ((getFirstById self id).2.m_database.table = self.m_database.table ∧
        (getFirstById self id).2.m_mode = self.m_mode ∧
        (getFirstById self id).2.m_dbFilePath = self.m_dbFilePath ∧
        (getFirstById self id).2.m_indices = self.m_indices) ∧
      ((getAllByIds self ids).2.m_database.table = self.m_database.table ∧
        (getAllByIds self ids).2.m_mode = self.m_mode ∧
        (getAllByIds self ids).2.m_dbFilePath = self.m_dbFilePath ∧
        (getAllByIds self ids).2.m_indices = self.m_indices) := by
  refine ⟨⟨rfl, rfl, rfl, rfl⟩, ?_, ⟨rfl, rfl, rfl, rfl⟩⟩
  unfold getFirstById
  split
  · rw [doGetFirst_snd, doGetAll_snd]
    exact ⟨rfl, rfl, rfl, rfl⟩
  · exact ⟨rfl, rfl, rfl, rfl⟩

/-- C7: `getFirstById` and `getAllByIds` agree on singleton lookups: for every
store state and every non-zero id, `getAllByIds [id]` returns a collection and
`getFirstById id` is its first element when it is non-empty and the
default-constructed value when it is empty.  For id 0 the two can differ: on
the example store `getFirstById 0` is the default value and executes nothing,
while `getAllByIds [0]` executes its query and returns the stored row of id 0. -/
theorem getFirstById_eq_head_getAllByIds (self : SqliteStorage R) (id : Id) (hid : id ≠ 0) :
    (∃ rows, (getAllByIds self [id]).1 = .ok rows ∧
        (getFirstById self id).1 = .ok (rows.headD ResultKind.defaultConstructed)) ∧
      ((getFirstById exampleStorage 0).1 = .ok ⟨0, 0, 0, 0⟩ ∧
        (getFirstById exampleStorage 0).2.m_database.executed = [] ∧
        (getAllByIds exampleStorage [0]).1 = .ok [⟨0, 5, 1, 2⟩] ∧
        (getAllByIds exampleStorage [0]).2.m_database.executed = ["WHERE id IN (0)"]) := by
  refine ⟨⟨_, selectRows_idIn self.m_database.table [id], ?_⟩, by decide⟩
  rw [getFirstById_fst self id hid]
  have hsame : (fun r : R => [id].contains (ResultKind.id r)) =
      (fun r : R => ResultKind.id r == id) := by
    funext r
    by_cases h : ResultKind.id r = id <;> simp [h]
  rw [hsame]
  cases self.m_database.table.filter (fun r => ResultKind.id r == id) <;> rfl

/-- Instance on the example store: id 3 is stored and found, id 8 is not stored
and gives the default value. -/
theorem getFirstById_nonzero_witness :
    ((3 : Id) ≠ 0 ∧ ∃ r, (getFirstById exampleStorage 3).1 = .ok r ∧
        r ∈ exampleStorage.m_database.table ∧ ResultKind.id r = 3) ∧
      ((8 : Id) ≠ 0 ∧ (getFirstById exampleStorage 8).1 = .ok ⟨0, 0, 0, 0⟩) :=
  ⟨⟨by decide, (getFirstById_nonzero exampleStorage 3 (by decide)).1
      ⟨⟨3, 1, 1, 2⟩, by decide, rfl⟩⟩,
    ⟨by decide, (getFirstById_nonzero exampleStorage 8 (by decide)).2 (by decide)⟩⟩

/-- Instance on the store without a row of id 0, with the id list `[3, 0]`: one
query is executed, it lists 0, and the rows returned have a non-zero id. -/
theorem getAllByIds_zero_witness :
    (0 : Id) ∈ [3, 0] ∧ (∀ r ∈ wellFormedStorage.m_database.table, ResultKind.id r ≠ 0) ∧
      (getAllByIds wellFormedStorage [3, 0]).2.m_database.executed = ["WHERE id IN (3,0)"] ∧
      (getAllByIds wellFormedStorage [3, 0]).1 = .ok [⟨3, 1, 1, 2⟩] ∧
      ∃ rows, (getAllByIds wellFormedStorage [3, 0]).1 = .ok rows ∧
        ∀ r ∈ rows, ResultKind.id r ≠ 0 :=
  have h := getAllByIds_zero wellFormedStorage [3, 0] (by decide)
  ⟨by decide, by decide, h.1, by decide,
    (h.2.2 (by decide)).elim fun rows hrows => ⟨rows, hrows.1, hrows.2.1⟩⟩

/-- Instance on the example store, with the id list `[3, 12, 3]` that repeats an
id. -/
theorem getAllByIds_eq_filter_getAll_witness :
    ∃ all rows, (getAll exampleStorage).1 = .ok all ∧
      (getAllByIds exampleStorage [3, 12, 3]).1 = .ok rows ∧
      rows = all.filter (fun r => decide (ResultKind.id r ∈ [3, 12, 3])) :=
  (getAllByIds_eq_filter_getAll exampleStorage [3, 12, 3]).elim fun all h =>
    h.elim fun rows hrows => ⟨all, rows, hrows.1, hrows.2.1, hrows.2.2.1⟩

/-- Instance on the example store, with id 12. -/
theorem getFirstById_eq_head_getAllByIds_witness :
    (12 : Id) ≠ 0 ∧ ∃ rows, (getAllByIds exampleStorage [12]).1 = .ok rows ∧
      (getFirstById exampleStorage 12).1 = .ok (rows.headD ResultKind.defaultConstructed) :=
  ⟨by decide, (getFirstById_eq_head_getAllByIds exampleStorage 12 (by decide)).1⟩

end SqliteStorage

end Lookups

/-! ## The project set-up form -/

namespace QtProjectSetupScreen

theorem handleUpdateButtonPress_valid (self : QtProjectSetupScreen)
    (hname : self.m_projectName ≠ "") (hlocation : self.m_projectFileLocation ≠ "")
    (hsource : self.m_sourcePaths ≠ []) :
    handleUpdateButtonPress self =
      ([Effect.settingsClear, .setSourcePaths self.m_sourcePaths,
          .setHeaderSearchPaths self.m_includePaths] ++
        (match self.m_frameworkPaths with
          | some paths => [Effect.setFrameworkSearchPaths paths]
          | none => []) ++
        [.save (self.m_projectFileLocation ++ "/" ++ self.m_projectName ++ ".coatiproject"),
          .dispatchLoadProject
            (self.m_projectFileLocation ++ "/" ++ self.m_projectName ++ ".coatiproject"),
          .emitFinished],
        clear self) := by
  have h1 : self.m_projectName.isEmpty = false := by
    rw [Bool.eq_false_iff, ne_eq, String.isEmpty_iff]; exact hname
  have h2 : self.m_projectFileLocation.isEmpty = false := by
    rw [Bool.eq_false_iff, ne_eq, String.isEmpty_iff]; exact hlocation
  have h3 : (self.m_sourcePaths.length == 0) = false := by
    cases hs : self.m_sourcePaths with
    | nil => exact absurd hs hsource
    | cons a t => rfl
  simp only [handleUpdateButtonPress, h1, h2, h3, Bool.false_eq_true, if_false]

theorem handleUpdateButtonPress_invalid (self : QtProjectSetupScreen)
    (h : self.m_projectName = "" ∨ self.m_projectFileLocation = "" ∨ self.m_sourcePaths = []) :
    ∃ text, handleUpdateButtonPress self = ([.messageBox text], self) := by
  unfold handleUpdateButtonPress
  split
  · exact ⟨_, rfl⟩
  next h1 =>
    split
    · exact ⟨_, rfl⟩
    next h2 =>
      split
      · exact ⟨_, rfl⟩
      next h3 =>
        exfalso
        rcases h with h | h | h
        · exact h1 ((String.isEmpty_iff _).mpr h)
        · exact h2 ((String.isEmpty_iff _).mpr h)
        · rw [h] at h3
          exact h3 rfl

/-- C8: `handleUpdateButtonPress` is atomic on invalid input: whenever the project
name is empty, or the project file location is empty, or the source path list is
empty, the handler only shows one message and returns: no call reaches the
project settings (not cleared, not modified, not saved), no `MessageLoadProject`
is dispatched, the form fields are as before and `finished()` is not emitted.
Conversely, when all three are non-empty the settings are cleared, filled from
the form and saved to the project file, the message is dispatched, `finished()`
is emitted, no message box is shown, and the form is cleared: name and location
are the empty text, the source and include path lists are empty, and so is the
framework path list where the form has one. -/
theorem handleUpdateButtonPress_atomic (self : QtProjectSetupScreen) :
    ((self.m_projectName = "" ∨ self.m_projectFileLocation = "" ∨ self.m_sourcePaths = []) →
        (∃ text, (handleUpdateButtonPress self).1 = [.messageBox text]) ∧
          (∀ e ∈ (handleUpdateButtonPress self).1, e.onSettings = false) ∧
          savedFiles (handleUpdateButtonPress self).1 = [] ∧
          dispatchedFiles (handleUpdateButtonPress self).1 = [] ∧
          Effect.emitFinished ∉ (handleUpdateButtonPress self).1 ∧
          (handleUpdateButtonPress self).2 = self) ∧
      ((self.m_projectName ≠ "" ∧ self.m_projectFileLocation ≠ "" ∧ self.m_sourcePaths ≠ []) →
        (∃ projectFile, savedFiles (handleUpdateButtonPress self).1 = [projectFile] ∧
            dispatchedFiles (handleUpdateButtonPress self).1 = [projectFile]) ∧
          Effect.settingsClear ∈ (handleUpdateButtonPress self).1 ∧
          Effect.setSourcePaths self.m_sourcePaths ∈ (handleUpdateButtonPress self).1 ∧
          Effect.setHeaderSearchPaths self.m_includePaths ∈ (handleUpdateButtonPress self).1 ∧
          Effect.emitFinished ∈ (handleUpdateButtonPress self).1 ∧
          (∀ text, Effect.messageBox text ∉ (handleUpdateButtonPress self).1) ∧
          (handleUpdateButtonPress self).2 = clear self ∧
          (handleUpdateButtonPress self).2.m_projectName = "" ∧
          (handleUpdateButtonPress self).2.m_projectFileLocation = "" ∧
          (handleUpdateButtonPress self).2.m_sourcePaths = [] ∧
          (handleUpdateButtonPress self).2.m_includePaths = [] ∧
          (handleUpdateButtonPress self).2.m_frameworkPaths =
            self.m_frameworkPaths.map (fun _ => []) ∧
          (handleUpdateButtonPress self).2 ≠ self) := by
  constructor
  · intro h
    obtain ⟨text, ht⟩ := handleUpdateButtonPress_invalid self h
    rw [ht]
    exact ⟨⟨text, rfl⟩, by simp [Effect.onSettings], rfl, rfl, by simp, rfl⟩
  · rintro ⟨hname, hlocation, hsource⟩
    rw [handleUpdateButtonPress_valid self hname hlocation hsource]
    have hne : clear self ≠ self := by
      intro h
      exact hname (by rw [← h]; rfl)
    cases hf : self.m_frameworkPaths <;>
      exact ⟨⟨_, rfl, rfl⟩, by simp, by simp, by simp, by simp, by simp, rfl, rfl, rfl, rfl, rfl,
        by simp [clear, hf], hne⟩

/-- Instances: the example form with its name erased is rejected and left as it
is; the example form is accepted and every field is empty afterwards; with
framework paths on the form, that list is emptied too. -/
theorem handleUpdateButtonPress_atomic_witness :
    (({ exampleForm with m_projectName := "" } : QtProjectSetupScreen).m_projectName = "" ∧
        (handleUpdateButtonPress { exampleForm with m_projectName := "" }).2 =
          { exampleForm with m_projectName := "" }) ∧
      ((exampleForm.m_projectName ≠ "" ∧ exampleForm.m_projectFileLocation ≠ "" ∧
          exampleForm.m_sourcePaths ≠ []) ∧
        (handleUpdateButtonPress exampleForm).2 = ⟨"", "", [], [], none⟩ ∧
        (handleUpdateButtonPress exampleForm).2.m_projectName = "" ∧
        (handleUpdateButtonPress exampleForm).2.m_sourcePaths = []) ∧
      (handleUpdateButtonPress { exampleForm with m_frameworkPaths := some ["/Library"] }).2 =
        ⟨"", "", [], [], some []⟩ :=
  have hvalid := (handleUpdateButtonPress_atomic exampleForm).2 (by decide)
  ⟨⟨rfl, ((handleUpdateButtonPress_atomic { exampleForm with m_projectName := "" }).1
      (Or.inl rfl)).2.2.2.2.2⟩,
    ⟨by decide, by decide, hvalid.2.2.2.2.2.2.2.1, hvalid.2.2.2.2.2.2.2.2.2.1⟩,
    by decide⟩

/-- C9: on a successful `handleUpdateButtonPress`, for every non-empty location
`L` and non-empty name `N` (and a non-empty source path list), the project file
path is exactly `L + "/" + N + ".coatiproject"`: it is the one path passed to
`ProjectSettings::save`, and the one dispatched `MessageLoadProject` carries the
same string. -/
theorem handleUpdateButtonPress_projectFile (self : QtProjectSetupScreen)
    (hname : self.m_projectName ≠ "") (hlocation : self.m_projectFileLocation ≠ "")
    (hsource : self.m_sourcePaths ≠ []) :
    savedFiles (handleUpdateButtonPress self).1 =
        [self.m_projectFileLocation ++ "/" ++ self.m_projectName ++ ".coatiproject"] ∧
      dispatchedFiles (handleUpdateButtonPress self).1 =
        savedFiles (handleUpdateButtonPress self).1 := by
  rw [handleUpdateButtonPress_valid self hname hlocation hsource]
  cases self.m_frameworkPaths <;> exact ⟨rfl, rfl⟩

/-- Instance on the example form. -/
theorem handleUpdateButtonPress_projectFile_witness :
    (exampleForm.m_projectName ≠ "" ∧ exampleForm.m_projectFileLocation ≠ "" ∧
        exampleForm.m_sourcePaths ≠ []) ∧
      savedFiles (handleUpdateButtonPress exampleForm).1 =
        ["/home/user/projects/demo.coatiproject"] ∧
      dispatchedFiles (handleUpdateButtonPress exampleForm).1 =
        ["/home/user/projects/demo.coatiproject"] :=
  have h := handleUpdateButtonPress_projectFile exampleForm (by decide) (by decide) (by decide)
  ⟨by decide, h.1, h.2.trans h.1⟩

end QtProjectSetupScreen

end Sourcetrail
